import Mathlib

/-!
Verification development for the sfi-web core services: the Session Agent
(src/services/auth.rs) and the Inventory Store Agent (src/services/data.rs).

Shallow embedding conventions:
* `Uuid` is modelled as `Nat`.
* `Arc<RwLock<T>>` handles are collapsed: the agent is the single writer
  (spec section 5), so a handle carried inside a request is modelled by the
  entity value it points at, and aliasing into the collection is modelled by
  uuid-keyed replacement.  `RwLock` read/write always succeeds (single
  threaded, no poisoning).
* A Rust panic (`.expect(..)` on a failed lookup) is modelled by `Option`:
  `none` is an unrecoverable fault.
* The side effects of a request handler (localStorage writes and
  `link.respond` calls) are recorded as an ordered event trace.
* The iteration order of a `HashSet` is not determined by the set's
  contents in any way the program controls; handlers that loop over
  `self.subscribers` therefore take the enumeration `order` as a parameter,
  constrained (in theorems) to enumerate the subscriber set without
  duplicates.
-/

abbrev Uuid := Nat

/-- Modelled from the spec: `UserInfo` (spec section 3) lives in the external
`sfi_core::users` crate, absent from src/; an opaque user id plus profile
fields.  Only the `uuid` field is read by the code under src/. -/
structure UserInfo where
  uuid : Uuid
  name : String
deriving Repr, DecidableEq

/-- Modelled from the spec: `Item` (spec section 3) is defined in the external
`sfi_core::core` crate, absent from src/: `{ id, inventory_id, name, ean }`. -/
structure Item where
  uuid : Uuid
  inventory_uuid : Uuid
  name : String
  ean : Option String
deriving Repr, DecidableEq

/-- Modelled from the spec: `Inventory` (spec section 3) is defined in the
external `sfi_core::core` crate, absent from src/: `{ id, name, owner,
admins, writables, readables, items }`.  `items` is the ordered sequence of
the inventory's items. -/
structure Inventory where
  uuid : Uuid
  name : String
  owner : Uuid
  admins : List Uuid
  writables : List Uuid
  readables : List Uuid
  items : List Item
deriving Repr, DecidableEq

/-- Modelled from the spec: `Inventory::new(name, owner)` (spec section 4.3)
creates an inventory with a fresh id, the given name and owner, empty
admins/writables/readables and empty items.  The fresh uuid is passed
explicitly (the source draws a random v4 uuid). -/
def Inventory.new (name : String) (owner : Uuid) (freshUuid : Uuid) : Inventory :=
  { uuid := freshUuid, name := name, owner := owner,
    admins := [], writables := [], readables := [], items := [] }

/-- Modelled from the spec: `Item::new(inventory_id, name, ean)` (spec
section 3) creates an item with a fresh id and the given back-reference,
name and ean.  The fresh uuid is passed explicitly. -/
def Item.new (inventory_uuid : Uuid) (name : String) (ean : Option String)
    (freshUuid : Uuid) : Item :=
  { uuid := freshUuid, inventory_uuid := inventory_uuid, name := name, ean := ean }

/-- Modelled from the spec: `AuthState` (spec section 3) is defined in
`src/components/login.rs`, absent from src/:
`Initial | Probing | LoggingIn | LoggedIn(UserInfo) | LoggingOut | Error`.
The in-flight `FetchTask` payloads and `anyhow::Error` are abstracted
(the reason as a `String`). -/
inductive AuthState where
  | Initial
  | Probing
  | LoggingIn
  | LoggedIn (user : UserInfo)
  | LoggingOut
  | Error (reason : String)
deriving Repr, DecidableEq

def AuthState.isLoggedIn : AuthState → Bool
  | .LoggedIn _ => true
  | _ => false

/-- yew's `HandlerId(usize, bool)`: a raw id and the "respondable" flag. -/
abbrev HandlerId := Nat × Bool

/-- `DataAgentRequest` (data.rs lines 24-49).  Requests that carry an
`Arc<RwLock<_>>` handle carry the pointed-at entity value here. -/
inductive DataAgentRequest where
  | MakeDebugInventory
  | GetInventories
  | GetInventory (uuid : Uuid)
  | CreateInventory (name : String)
  | UpdateInventory (target : Inventory) (name : String) (owner : Uuid)
      (admins writables readables : List Uuid)
  | DeleteInventory (target : Inventory)
  | UpdateItem (target : Item) (name : String) (ean : Option String)
  | CreateItem (inventory_uuid : Uuid) (name : String) (ean : Option String)
  | DeleteAllData
  | GetItem (inventory_uuid : Uuid) (item_uuid : Uuid)
  | DeleteItem (target : Item)
deriving Repr, DecidableEq

/-- `DataAgentResponse` (data.rs lines 52-64). -/
inductive DataAgentResponse where
  | Inventories (invs : List Inventory)
  | NewInventoryUuid (uuid : Uuid)
  | Inventory (inv : Inventory)
  | InvalidInventoryUuid
  | UpdatedInventory (inv : Inventory)
  | DeletedInventory (uuid : Uuid)
  | NewItemUuid (uuid : Uuid)
  | Item (item : Item)
  | UpdatedItem
  | DeletedItem (uuid : Uuid)
deriving Repr, DecidableEq

/-- One observable side effect of a `DataAgent` handler, in program order:
a localStorage write of the serialized collection (`persist_data`,
data.rs lines 353-356) or a `link.respond(to, msg)` call. -/
inductive AgentEvent where
  | Persist (data : List Inventory)
  | Respond (dest : HandlerId) (msg : DataAgentResponse)
deriving Repr, DecidableEq

/-- State of `DataAgent` (data.rs lines 70-78).  `local_storage` and the
bridges are externalized into the event trace. -/
structure DataAgent where
  subscribers : Finset HandlerId
  auth_state : AuthState
  inventories : List Inventory
deriving DecidableEq

/-- `DataAgent::create` (data.rs lines 86-115): subscribers empty, the
collection restored from localStorage (handled separately, see the
persistence section), auth state `Initial`. -/
def DataAgent.mk0 (store : List Inventory) : DataAgent :=
  { subscribers := ∅, auth_state := .Initial, inventories := store }

/-- `DataAgent::update` (data.rs lines 117-121): a `Msg::NewAuthState`
from the auth bridge replaces the cached auth state. -/
def DataAgent.newAuthState (a : DataAgent) (s : AuthState) : DataAgent :=
  { a with auth_state := s }

/-- `DataAgent::find_inv` (data.rs lines 358-362). -/
def DataAgent.find_inv (a : DataAgent) (inv_uuid : Uuid) : Option Inventory :=
  a.inventories.find? (fun inv => inv.uuid == inv_uuid)

/-- The broadcast loop `for sub in self.subscribers.iter() { link.respond(*sub, msg) }`
over a given `HashSet` enumeration. -/
def broadcastTo (order : List HandlerId) (msg : DataAgentResponse) : List AgentEvent :=
  order.map (fun sub => AgentEvent.Respond sub msg)

/-- `DataAgent::handle_input` (data.rs lines 123-336).  Returns the new
agent state and the ordered event trace, or `none` when the handler
panics (`.expect(..)` on a failed lookup).  `order` is the iteration
order of `self.subscribers`; `fresh` and `fresh2` stand for the
`Uuid::new_v4()` draws a handler may make. -/
def DataAgent.handle_input (a : DataAgent) (msg : DataAgentRequest) (id : HandlerId)
    (order : List HandlerId) (fresh fresh2 : Uuid) :
    Option (DataAgent × List AgentEvent) :=
  match msg with
  | .GetInventories =>
      some (a, broadcastTo order (.Inventories a.inventories))
  | .MakeDebugInventory =>
      let inv := match a.auth_state with
        | .LoggedIn user_info => Inventory.new "debug inv" user_info.uuid fresh
        | _ => Inventory.new "debug inv" fresh2 fresh
      let invs := a.inventories ++ [inv]
      some ({ a with inventories := invs },
        AgentEvent.Persist invs
          :: AgentEvent.Respond id (.NewInventoryUuid inv.uuid)
          :: broadcastTo order (.Inventories invs))
  | .CreateInventory name =>
      match a.auth_state with
      | .LoggedIn user_info =>
          let inv := Inventory.new name user_info.uuid fresh
          let invs := a.inventories ++ [inv]
          some ({ a with inventories := invs },
            AgentEvent.Persist invs
              :: AgentEvent.Respond id (.NewInventoryUuid inv.uuid)
              :: broadcastTo order (.Inventories invs))
      | _ => some (a, [])
  | .DeleteAllData =>
      some ({ a with inventories := [] },
        AgentEvent.Persist [] :: broadcastTo order (.Inventories []))
  | .GetInventory inv_uuid =>
      let res := match a.find_inv inv_uuid with
        | some inventory => DataAgentResponse.Inventory inventory
        | none => DataAgentResponse.InvalidInventoryUuid
      some (a, [AgentEvent.Respond id res])
  | .CreateItem inventory_uuid name ean =>
      let item := Item.new inventory_uuid name ean fresh
      match a.inventories.findIdx? (fun inv => inv.uuid == inventory_uuid) with
      | none => none
      | some index =>
          match a.inventories.get? index with
          | none => none
          | some inv =>
              let invs := a.inventories.set index { inv with items := inv.items ++ [item] }
              some ({ a with inventories := invs },
                [AgentEvent.Persist invs, AgentEvent.Respond id (.NewItemUuid item.uuid)])
  | .UpdateInventory target name owner admins writables readables =>
      let updated := { target with
        name := name, owner := owner, admins := admins,
        writables := writables, readables := readables }
      let invs := a.inventories.map (fun inv =>
        if inv.uuid == target.uuid then { updated with items := inv.items } else inv)
      some ({ a with inventories := invs },
        [AgentEvent.Persist invs, AgentEvent.Respond id (.UpdatedInventory updated)])
  | .GetItem inventory_uuid item_uuid =>
      match a.inventories.find? (fun inv => inv.uuid == inventory_uuid) with
      | none => none
      | some inventory =>
          let res := match inventory.items.find? (fun item => item.uuid == item_uuid) with
            | some item => DataAgentResponse.Item item
            | none => DataAgentResponse.InvalidInventoryUuid
          some (a, [AgentEvent.Respond id res])
  | .UpdateItem target name ean =>
      let updated := { target with name := name, ean := ean }
      let invs := a.inventories.map (fun inv =>
        { inv with items := inv.items.map (fun item =>
            if item.uuid == target.uuid then updated else item) })
      some ({ a with inventories := invs },
        [AgentEvent.Persist invs, AgentEvent.Respond id .UpdatedItem])
  | .DeleteInventory target =>
      let target_uuid := target.uuid
      match a.inventories.findIdx? (fun i => i.uuid == target_uuid) with
      | none => none
      | some index =>
          let invs := a.inventories.eraseIdx index
          some ({ a with inventories := invs },
            [AgentEvent.Persist invs,
             AgentEvent.Respond id (.DeletedInventory target_uuid)])
  | .DeleteItem target =>
      match a.inventories.findIdx? (fun i => i.uuid == target.inventory_uuid) with
      | none => none
      | some invIndex =>
          match a.inventories.get? invIndex with
          | none => none
          | some inv =>
              match inv.items.findIdx? (fun i => i.uuid == target.uuid) with
              | none => none
              | some itemIndex =>
                  let invs := a.inventories.set invIndex
                    { inv with items := inv.items.eraseIdx itemIndex }
                  some ({ a with inventories := invs },
                    [AgentEvent.Persist invs,
                     AgentEvent.Respond id (.DeletedItem target.uuid)])

/-- `DataAgent::persist_data` (data.rs lines 353-356): the value written to
localStorage under `SIMPLE_STORE_KEY` is the whole inventory collection. -/
def DataAgent.persist_data (a : DataAgent) : List Inventory :=
  a.inventories


/-- Debug rendering of a decimal digit (the `usize` inside a `HandlerId`
prints as its decimal digits). -/
def natDigitChar (d : Nat) : Char := Char.ofNat (48 + d)

def natDigits (n : Nat) : List Char :=
  if h : n < 10 then [natDigitChar n]
  else natDigits (n / 10) ++ [natDigitChar (n % 10)]
decreasing_by
  exact Nat.div_lt_self (Nat.lt_of_lt_of_le (by decide) (Nat.le_of_not_lt h)) (by decide)

/-- The derived `Debug` rendering of yew's `HandlerId(usize, bool)`, as a
character list: `HandlerId(<digits>, <bool>)`. -/
def handlerIdDebugChars (id : HandlerId) : List Char :=
  ['H', 'a', 'n', 'd', 'l', 'e', 'r', 'I', 'd', '('] ++ natDigits id.1
    ++ ([',', ' ']
        ++ (if id.2 then ['t', 'r', 'u', 'e'] else ['f', 'a', 'l', 's', 'e'])
        ++ [')'])

/-- `format!("{:?}", &id).contains("true")` (data.rs line 342). -/
def handlerIdDebugContainsTrue (id : HandlerId) : Bool :=
  decide (List.IsInfix ['t', 'r', 'u', 'e'] (handlerIdDebugChars id))

/-- `DataAgent::connected` (data.rs lines 338-345): register the consumer
only when its debug rendering contains the substring `true`. -/
def DataAgent.connected (a : DataAgent) (id : HandlerId) : DataAgent :=
  if handlerIdDebugContainsTrue id
  then { a with subscribers := insert id a.subscribers }
  else a

/-- `DataAgent::disconnected` (data.rs lines 347-349). -/
def DataAgent.disconnected (a : DataAgent) (id : HandlerId) : DataAgent :=
  { a with subscribers := a.subscribers.erase id }

/-- `Request` of the auth agent (auth.rs lines 18-23).  The credential and
registration payloads are opaque to the agent. -/
inductive AuthRequest where
  | GetAuthStatus
  | Login (login_info : String)
  | Signup (signup_info : String)
  | Logout
deriving Repr, DecidableEq

/-- `Msg` of the auth agent (auth.rs lines 25-29): outcomes delivered by the
fetch callbacks. -/
inductive AuthMsg where
  | LoggedIn (user : UserInfo)
  | LoggedOut
  | LoginError (error : String)
deriving Repr, DecidableEq

/-- State of `AuthAgent` (auth.rs lines 31-34): just the subscriber set
(a `HashSet<HandlerId>`). -/
structure AuthAgent where
  subscribers : Finset HandlerId
deriving DecidableEq

def AuthAgent.mk0 : AuthAgent := { subscribers := ∅ }

/-- `AuthAgent::connected` (auth.rs lines 100-102): unconditional insert. -/
def AuthAgent.connected (a : AuthAgent) (id : HandlerId) : AuthAgent :=
  { a with subscribers := insert id a.subscribers }

/-- `AuthAgent::disconnected` (auth.rs lines 104-106). -/
def AuthAgent.disconnected (a : AuthAgent) (id : HandlerId) : AuthAgent :=
  { a with subscribers := a.subscribers.erase id }

/-- The state value produced by `AuthAgent::update` (auth.rs lines 49-60)
from a fetch-callback message. -/
def authUpdateOutput : AuthMsg → AuthState
  | .LoggedIn user_info => .LoggedIn user_info
  | .LoginError error => .Error error
  | .LoggedOut => .Initial

/-- `AuthAgent::update` (auth.rs lines 49-60): broadcast the new state to
every subscriber, `order` being the `HashSet` enumeration.  The agent state
is unchanged; the result is the list of `link.respond` deliveries. -/
def AuthAgent.update (msg : AuthMsg) (order : List HandlerId) :
    List (HandlerId × AuthState) :=
  order.map (fun sub => (sub, authUpdateOutput msg))

/-- The fetch callback of `AuthAgent::login` (auth.rs lines 121-130): the
response body parsed as `Result<UserInfo>`. -/
def loginCallback : Except String UserInfo → AuthMsg
  | .ok user => .LoggedIn user
  | .error error => .LoginError error

/-- The fetch callback of `AuthAgent::signup` (auth.rs lines 152-161). -/
def signupCallback : Except String UserInfo → AuthMsg
  | .ok user => .LoggedIn user
  | .error error => .LoginError error

/-- The fetch callback of `AuthAgent::logout` (auth.rs lines 182-191): any
parsed `StatusNotice` yields `LoggedOut`; a failure yields `LoginError`. -/
def logoutCallback : Except String Unit → AuthMsg
  | .ok _ => .LoggedOut
  | .error error => .LoginError error

/-- The fetch callback of `AuthAgent::probe_state` (auth.rs lines 212-221):
a rejection is `LoggedOut` (back to `Initial`), not an error. -/
def probeCallback : Except String UserInfo → AuthMsg
  | .ok user => .LoggedIn user
  | .error _ => .LoggedOut

/-- The immediate state value a request handler computes (auth.rs lines
110-230): when the fetch task starts, the corresponding in-flight state;
when `FetchService::fetch_with_options` fails, `Error`. -/
def authRequestOutput (msg : AuthRequest) (taskOk : Bool) (taskErr : String) : AuthState :=
  match msg with
  | .GetAuthStatus => if taskOk then .Probing else .Error taskErr
  | .Login _ => if taskOk then .LoggingIn else .Error taskErr
  | .Signup _ => if taskOk then .LoggingIn else .Error taskErr
  | .Logout => if taskOk then .LoggingOut else .Error taskErr

/-- `AuthAgent::handle_input` (auth.rs lines 62-98): every branch computes
one output state and responds with it to each subscriber in `order`; the
requester id is ignored (`_id` in the source). -/
def AuthAgent.handle_input (msg : AuthRequest) (order : List HandlerId)
    (taskOk : Bool) (taskErr : String) : List (HandlerId × AuthState) :=
  order.map (fun sub => (sub, authRequestOutput msg taskOk taskErr))

/-- The invariant claimed for the data agent's subscriber set: every
registered handler's debug rendering contains the substring `true`. -/
def subscribersRespondable (a : DataAgent) : Prop :=
  ∀ id ∈ a.subscribers, List.IsInfix ['t', 'r', 'u', 'e'] (handlerIdDebugChars id)

/-- One step of the data agent's lifecycle: a consumer connects or
disconnects, an auth broadcast arrives over the bridge, or a request is
handled without panicking. -/
inductive DataStep : DataAgent → DataAgent → Prop
  | connected (a : DataAgent) (id : HandlerId) : DataStep a (a.connected id)
  | disconnected (a : DataAgent) (id : HandlerId) : DataStep a (a.disconnected id)
  | newAuthState (a : DataAgent) (s : AuthState) : DataStep a (a.newAuthState s)
  | input (a : DataAgent) (msg : DataAgentRequest) (id : HandlerId)
      (order : List HandlerId) (fresh fresh2 : Uuid) (a2 : DataAgent)
      (events : List AgentEvent) :
      a.handle_input msg id order fresh fresh2 = some (a2, events) → DataStep a a2

/-- Reachability of a data agent state from construction. -/
def DataReachable (store : List Inventory) (a : DataAgent) : Prop :=
  Relation.ReflTransGen DataStep (DataAgent.mk0 store) a

/-- Modelled from the spec: the persistence snapshot (spec sections 3 and 6)
is the inventory collection "serialized as one blob under a fixed key" in a
"JSON-compatible array"; serde's JSON serialization of `Inventory`/`Item`
lives in the external `sfi_core` crate, absent from src/.  A JSON value
tree stands for the stored blob. -/
inductive JsonVal where
  | null
  | bool (b : Bool)
  | num (n : Nat)
  | str (s : String)
  | arr (xs : List JsonVal)
  | obj (fields : List (String × JsonVal))

def encodeOptStr : Option String → JsonVal
  | none => .null
  | some s => .str s

def decodeOptStr : JsonVal → Option (Option String)
  | .null => some none
  | .str s => some (some s)
  | _ => none

def encodeUuidList (l : List Uuid) : JsonVal :=
  .arr (l.map JsonVal.num)

def decodeNum : JsonVal → Option Nat
  | .num n => some n
  | _ => none

def decodeListWith (f : JsonVal → Option α) : List JsonVal → Option (List α)
  | [] => some []
  | x :: xs =>
      match f x, decodeListWith f xs with
      | some y, some ys => some (y :: ys)
      | _, _ => none

def decodeUuidList : JsonVal → Option (List Uuid)
  | .arr xs => decodeListWith decodeNum xs
  | _ => none

/-- Modelled from the spec: serde serialization of an `Item`, one field per
struct field in declaration order. -/
def encodeItem (it : Item) : JsonVal :=
  .obj [("uuid", .num it.uuid), ("inventory_uuid", .num it.inventory_uuid),
        ("name", .str it.name), ("ean", encodeOptStr it.ean)]

/-- Modelled from the spec: serde deserialization of an `Item`. -/
def decodeItem : JsonVal → Option Item
  | .obj [("uuid", .num u), ("inventory_uuid", .num iu), ("name", .str n), ("ean", e)] =>
      (decodeOptStr e).map (fun ean =>
        { uuid := u, inventory_uuid := iu, name := n, ean := ean })
  | _ => none

/-- Modelled from the spec: serde serialization of an `Inventory` with its
nested item sequence. -/
def encodeInventory (inv : Inventory) : JsonVal :=
  .obj [("uuid", .num inv.uuid), ("name", .str inv.name), ("owner", .num inv.owner),
        ("admins", encodeUuidList inv.admins), ("writables", encodeUuidList inv.writables),
        ("readables", encodeUuidList inv.readables),
        ("items", .arr (inv.items.map encodeItem))]

/-- Modelled from the spec: serde deserialization of an `Inventory`. -/
def decodeInventory : JsonVal → Option Inventory
  | .obj [("uuid", .num u), ("name", .str n), ("owner", .num o),
          ("admins", a), ("writables", w), ("readables", r), ("items", .arr its)] =>
      match decodeUuidList a, decodeUuidList w, decodeUuidList r,
          decodeListWith decodeItem its with
      | some a2, some w2, some r2, some its2 =>
          some { uuid := u, name := n, owner := o, admins := a2, writables := w2,
                 readables := r2, items := its2 }
      | _, _, _, _ => none
  | _ => none

/-- The blob written by `persist_data` (data.rs lines 353-356):
`Json(&self.inventories)`, the whole collection as a JSON array. -/
def encodeStore (invs : List Inventory) : JsonVal :=
  .arr (invs.map encodeInventory)

/-- The parse applied at `DataAgent::create` (data.rs lines 91-99) to the
value found under `SIMPLE_STORE_KEY`. -/
def decodeStore : JsonVal → Option (List Inventory)
  | .arr xs => decodeListWith decodeInventory xs
  | _ => none

/-- `DataAgent::create` (data.rs lines 86-115) including the restore step:
`if let Json(Ok(store)) = local_storage.restore(SIMPLE_STORE_KEY)` keeps the
parsed collection, `else` the collection starts empty.  `none` models an
absent key. -/
def DataAgent.createFromStorage (stored : Option JsonVal) : DataAgent :=
  { subscribers := ∅, auth_state := .Initial,
    inventories :=
      match stored with
      | some v => (decodeStore v).getD []
      | none => [] }

/-- The blob `persist_data` (data.rs lines 353-356) writes for an agent
state: the serialized whole collection. -/
def DataAgent.persistBlob (a : DataAgent) : JsonVal :=
  encodeStore a.inventories

/-- Which requests mutate the collection (spec section 4.3's mutating
operations): `CreateInventory` mutates only when a user is logged in
(data.rs lines 160-178). -/
def DataAgent.mutates (a : DataAgent) : DataAgentRequest → Bool
  | .MakeDebugInventory => true
  | .GetInventories => false
  | .GetInventory _ => false
  | .CreateInventory _ => a.auth_state.isLoggedIn
  | .UpdateInventory _ _ _ _ _ _ => true
  | .DeleteInventory _ => true
  | .UpdateItem _ _ _ => true
  | .CreateItem _ _ _ => true
  | .DeleteAllData => true
  | .GetItem _ _ => false
  | .DeleteItem _ => true

/-- Concrete values used to instantiate theorems. -/
def itemA : Item :=
  { uuid := 5, inventory_uuid := 1, name := "Drill", ean := some "123" }

def invA : Inventory :=
  { uuid := 1, name := "Garage", owner := 2, admins := [], writables := [],
    readables := [], items := [itemA] }

def userA : UserInfo := { uuid := 2, name := "a" }

def agentA : DataAgent :=
  { subscribers := ∅, auth_state := .LoggedIn userA, inventories := [invA] }

def rid0 : HandlerId := (7, true)

def sub0 : HandlerId := (0, true)

/-- A data agent with one subscriber (`sub0`), logged in, holding `invA`. -/
def agentC : DataAgent :=
  { subscribers := {sub0}, auth_state := .LoggedIn userA, inventories := [invA] }

/-- An auth agent with one subscriber (`sub0`). -/
def authAgentB : AuthAgent := AuthAgent.mk0.connected sub0

theorem natDigits_digit (n : Nat) : ∀ c ∈ natDigits n, ∃ d, d < 10 ∧ c = natDigitChar d := by
  induction n using Nat.strong_induction_on with
  | _ n ih =>
    intro c hc
    rw [natDigits] at hc
    by_cases h : n < 10
    · rw [dif_pos h] at hc
      simp only [List.mem_singleton] at hc
      exact ⟨n, h, hc⟩
    · rw [dif_neg h] at hc
      rcases List.mem_append.mp hc with h1 | h2
      · exact ih (n / 10) (Nat.div_lt_self (by omega) (by decide)) c h1
      · simp only [List.mem_singleton] at h2
        exact ⟨n % 10, Nat.mod_lt _ (by decide), h2⟩

theorem t_not_mem_natDigits (n : Nat) : 't' ∉ natDigits n := by
  intro hmem
  obtain ⟨d, hd, hc⟩ := natDigits_digit n _ hmem
  have hall : ∀ d ∈ List.range 10, natDigitChar d ≠ 't' := by decide
  exact hall d (List.mem_range.mpr hd) hc.symm

/-- The debug rendering of a `HandlerId` contains `true` exactly when the
respondable flag is set: `true` is visibly a substring then, and otherwise
the rendering (`HandlerId(<digits>, false)`) contains no letter `t` at all. -/
theorem handlerIdDebugContainsTrue_eq (id : HandlerId) :
    handlerIdDebugContainsTrue id = id.2 := by
  obtain ⟨n, b⟩ := id
  cases b with
  | true =>
    simp only [handlerIdDebugContainsTrue, decide_eq_true_eq]
    refine ⟨['H', 'a', 'n', 'd', 'l', 'e', 'r', 'I', 'd', '('] ++ natDigits n
      ++ [',', ' '], [')'], ?_⟩
    simp [handlerIdDebugChars]
  | false =>
    simp only [handlerIdDebugContainsTrue, decide_eq_false_iff_not]
    intro hinf
    have ht : 't' ∈ handlerIdDebugChars (n, false) := hinf.subset (by decide)
    have hchars : handlerIdDebugChars (n, false)
        = ['H', 'a', 'n', 'd', 'l', 'e', 'r', 'I', 'd', '('] ++ natDigits n
          ++ [',', ' ', 'f', 'a', 'l', 's', 'e', ')'] := by
      simp [handlerIdDebugChars]
    rw [hchars] at ht
    rcases List.mem_append.mp ht with h | h
    · rcases List.mem_append.mp h with h | h
      · exact absurd h (by decide)
      · exact t_not_mem_natDigits n h
    · exact absurd h (by decide)

theorem decodeListWith_map (f : JsonVal → Option α) (g : α → JsonVal)
    (hfg : ∀ x, f (g x) = some x) (xs : List α) :
    decodeListWith f (xs.map g) = some xs := by
  induction xs with
  | nil => rfl
  | cons x xs ih => simp [decodeListWith, hfg, ih]

theorem decodeOptStr_encode (o : Option String) :
    decodeOptStr (encodeOptStr o) = some o := by
  cases o <;> rfl

theorem decodeUuidList_encode (l : List Uuid) :
    decodeUuidList (encodeUuidList l) = some l := by
  simp only [decodeUuidList, encodeUuidList]
  exact decodeListWith_map decodeNum JsonVal.num (fun _ => rfl) l

theorem decodeItem_encode (it : Item) : decodeItem (encodeItem it) = some it := by
  cases it with
  | mk u iu n e => cases e <;> rfl

theorem decodeInventory_encode (inv : Inventory) :
    decodeInventory (encodeInventory inv) = some inv := by
  cases inv with
  | mk u n o a w r its =>
    simp [encodeInventory, decodeInventory, decodeUuidList_encode,
      decodeListWith_map decodeItem encodeItem decodeItem_encode]

theorem decodeStore_encode (invs : List Inventory) :
    decodeStore (encodeStore invs) = some invs := by
  simp only [decodeStore, encodeStore]
  exact decodeListWith_map decodeInventory encodeInventory decodeInventory_encode invs

theorem DataAgent.handle_input_subscribers {a : DataAgent} {msg : DataAgentRequest}
    {id : HandlerId} {order : List HandlerId} {fresh fresh2 : Uuid} {a2 : DataAgent}
    {events : List AgentEvent}
    (h : a.handle_input msg id order fresh fresh2 = some (a2, events)) :
    a2.subscribers = a.subscribers := by
  cases msg <;>
    simp only [DataAgent.handle_input] at h <;>
    (repeat' split at h) <;>
    simp_all <;>
    (try obtain ⟨rfl, rfl⟩ := h) <;>
    rfl

theorem mem_broadcastTo {e : AgentEvent} {order : List HandlerId} {msg : DataAgentResponse}
    (he : e ∈ broadcastTo order msg) : ∃ d, e = AgentEvent.Respond d msg := by
  obtain ⟨s, _, rfl⟩ := List.mem_map.mp he
  exact ⟨s, rfl⟩

/-- C10: in every reachable state of the Inventory Store Agent, every
registered subscriber's HandlerId debug rendering contains the substring
`true` (it is a respondable handler): `connected` registers a consumer only
under that test, `disconnected` removes it, and no request handler or auth
broadcast touches the subscriber set — so a consumer whose handler id fails
the test is never in the set a broadcast loop iterates over. -/
theorem C10_subscriber_invariant (store : List Inventory) (a : DataAgent)
    (h : DataReachable store a) : subscribersRespondable a := by
  induction h with
  | refl =>
      intro j hj
      simp [DataAgent.mk0] at hj
  | tail hsteps hstep ih =>
      cases hstep with
      | connected id =>
          intro j hj
          unfold DataAgent.connected at hj
          split at hj
          case isTrue hc =>
            rcases Finset.mem_insert.mp hj with rfl | hj2
            · exact of_decide_eq_true hc
            · exact ih j hj2
          case isFalse hc => exact ih j hj
      | disconnected id =>
          intro j hj
          exact ih j (Finset.mem_of_mem_erase hj)
      | newAuthState s =>
          intro j hj
          exact ih j hj
      | input msg id order fresh fresh2 a2 events h2 =>
          intro j hj
          rw [DataAgent.handle_input_subscribers h2] at hj
          exact ih j hj

/-- Witness for C10: the state reached by one `connected (3, true)` step
holds `(3, true)`, and the invariant yields its substring property. -/
theorem C10_subscriber_invariant_witness :
    handlerIdDebugContainsTrue (3, true) = true :=
  decide_eq_true
    (C10_subscriber_invariant [] ((DataAgent.mk0 []).connected (3, true))
      (Relation.ReflTransGen.single (DataStep.connected (DataAgent.mk0 []) (3, true)))
      (3, true)
      (by simp [DataAgent.mk0, DataAgent.connected, handlerIdDebugContainsTrue_eq]))

/-- C8: the persist → reload round-trip holds for every agent state: the
blob `persist_data` writes, parsed back the way `DataAgent::create` parses
the stored value, reproduces the inventory collection exactly (ids, fields
and item sequences, by structural equality). -/
theorem C8_persist_reload (a : DataAgent) :
    (DataAgent.createFromStorage (some a.persistBlob)).inventories = a.inventories := by
  simp [DataAgent.createFromStorage, DataAgent.persistBlob, decodeStore_encode]

/-- C6: the Session Agent broadcast state machine: a login whose network
call succeeds with valid credentials (body parses as a user) yields
`LoggedIn(user)`; a login whose call fails (invalid credentials) yields
`Error(_)`; and a logout whose call completes without transport failure
yields `Initial` — `update` reads no prior state, so the last holds from
`LoggedIn` and `Error` alike. -/
theorem C6_session_transitions (u : UserInfo) (e : String) (order : List HandlerId) :
    authUpdateOutput (loginCallback (.ok u)) = .LoggedIn u ∧
    authUpdateOutput (loginCallback (.error e)) = .Error e ∧
    authUpdateOutput (logoutCallback (.ok ())) = .Initial ∧
    AuthAgent.update (logoutCallback (.ok ())) order
      = order.map (fun sub => (sub, AuthState.Initial)) :=
  ⟨rfl, rfl, rfl, rfl⟩

/-- C1 counterexample: the claim says a `GetItem` whose inventory id has no
match gets the typed reply `InvalidInventoryUuid` and never crashes; but
`handle_input` reaches `.expect("No such item")` on the failed inventory
lookup (data.rs line 257) and panics (`none`), sending no reply at all. -/
theorem C1_counterexample :
    (DataAgent.mk0 []).handle_input (.GetItem 0 0) rid0 [] 0 0 = none := rfl

/-- C1 amended: `GetItem(inventory_id, item_id)` replies `Item(ref)` when
both the inventory and the item resolve; replies `InvalidInventoryUuid`
when the inventory resolves but the item does not; and panics (an
unrecoverable fault, no reply) when the inventory id has no match. -/
theorem C1_amended (a : DataAgent) (rid : HandlerId) (order : List HandlerId)
    (fresh fresh2 : Uuid) (iu tu : Uuid) :
    (a.inventories.find? (fun inv => inv.uuid == iu) = none →
      a.handle_input (.GetItem iu tu) rid order fresh fresh2 = none) ∧
    ∀ inv, a.inventories.find? (fun inv => inv.uuid == iu) = some inv →
      (∀ item, inv.items.find? (fun it => it.uuid == tu) = some item →
        a.handle_input (.GetItem iu tu) rid order fresh fresh2
          = some (a, [AgentEvent.Respond rid (.Item item)])) ∧
      (inv.items.find? (fun it => it.uuid == tu) = none →
        a.handle_input (.GetItem iu tu) rid order fresh fresh2
          = some (a, [AgentEvent.Respond rid .InvalidInventoryUuid])) := by
  refine ⟨fun h => ?_, fun inv hinv => ⟨fun item hitem => ?_, fun h => ?_⟩⟩ <;>
    simp [DataAgent.handle_input, *]

/-- Witness for C1 amended: both ids of `(1, 5)` resolve in `agentA` and the
direct reply is `Item itemA`. -/
theorem C1_amended_witness :
    agentA.inventories.find? (fun inv => inv.uuid == 1) = some invA ∧
    invA.items.find? (fun it => it.uuid == 5) = some itemA ∧
    agentA.handle_input (.GetItem 1 5) rid0 [] 0 0
      = some (agentA, [AgentEvent.Respond rid0 (.Item itemA)]) :=
  ⟨rfl, rfl, ((C1_amended agentA rid0 [] 0 0 1 5).2 invA rfl).1 itemA rfl⟩

/-- C3: a `CreateInventory` while the cached auth state is not
`LoggedIn(_)` is a silent no-op (data.rs lines 160-178: the `if let` has no
`else`): no events at all — no reply, no broadcast, no persistence write —
and the agent state is unchanged. -/
theorem C3_create_inventory_no_auth (a : DataAgent) (name : String) (rid : HandlerId)
    (order : List HandlerId) (fresh fresh2 : Uuid)
    (hauth : a.auth_state.isLoggedIn = false) :
    a.handle_input (.CreateInventory name) rid order fresh fresh2 = some (a, []) := by
  cases h : a.auth_state <;> simp_all [DataAgent.handle_input, AuthState.isLoggedIn]

/-- Witness for C3 at the freshly constructed agent (auth state `Initial`). -/
theorem C3_create_inventory_no_auth_witness :
    (DataAgent.mk0 []).handle_input (.CreateInventory "Garage") rid0 [sub0] 0 0
      = some (DataAgent.mk0 [], []) :=
  C3_create_inventory_no_auth (DataAgent.mk0 []) "Garage" rid0 [sub0] 0 0 rfl

/-- C4 counterexample: the claim says a matching `DeleteInventory` also
broadcasts the updated list to all subscribers; but the handler (data.rs
lines 288-306) only persists and sends the direct reply — with subscriber
`sub0` enumerated, no `Inventories` broadcast event reaches it. -/
theorem C4_counterexample :
    agentC.handle_input (.DeleteInventory invA) rid0 [sub0] 0 0
      = some ({ agentC with inventories := [] },
          [AgentEvent.Persist [], AgentEvent.Respond rid0 (.DeletedInventory 1)]) ∧
    AgentEvent.Respond sub0 (.Inventories [])
      ∉ [AgentEvent.Persist [], AgentEvent.Respond rid0 (.DeletedInventory 1)] :=
  ⟨rfl, by decide⟩

/-- C4 amended: a `DeleteInventory` whose target id matches removes the
first matching entry by id, persists, and sends only the direct reply
`DeletedInventory(id)` — no broadcast of the updated list is sent. -/
theorem C4_amended (a : DataAgent) (target : Inventory) (rid : HandlerId)
    (order : List HandlerId) (fresh fresh2 : Uuid) (index : Nat)
    (hidx : a.inventories.findIdx? (fun i => i.uuid == target.uuid) = some index) :
    a.handle_input (.DeleteInventory target) rid order fresh fresh2
      = some ({ a with inventories := a.inventories.eraseIdx index },
          [AgentEvent.Persist (a.inventories.eraseIdx index),
           AgentEvent.Respond rid (.DeletedInventory target.uuid)]) := by
  simp [DataAgent.handle_input, hidx]

/-- Witness for C4 amended: deleting `invA` from `agentC`. -/
theorem C4_amended_witness :
    agentC.inventories.findIdx? (fun i => i.uuid == invA.uuid) = some 0 ∧
    agentC.handle_input (.DeleteInventory invA) rid0 [sub0] 0 0
      = some ({ agentC with inventories := [] },
          [AgentEvent.Persist [], AgentEvent.Respond rid0 (.DeletedInventory invA.uuid)]) :=
  ⟨rfl, C4_amended agentC invA rid0 [sub0] 0 0 0 rfl⟩

/-- C2: a `CreateInventory(name)` while logged in as `user` appends a fresh
inventory (given name, owner `user.uuid`, empty admins/writables/readables,
empty items), persists the new collection, replies `NewInventoryUuid(id)`
to the requester, broadcasts the updated list to the enumerated
subscribers, and a subsequent `GetInventory(id)` on the new state resolves
to exactly that entity. -/
theorem C2_create_inventory (a : DataAgent) (u : UserInfo) (name : String)
    (rid : HandlerId) (order : List HandlerId) (fresh fresh2 : Uuid)
    (hauth : a.auth_state = .LoggedIn u)
    (hfresh : ∀ inv ∈ a.inventories, inv.uuid ≠ fresh) :
    a.handle_input (.CreateInventory name) rid order fresh fresh2
      = some ({ a with inventories := a.inventories ++ [Inventory.new name u.uuid fresh] },
          AgentEvent.Persist (a.inventories ++ [Inventory.new name u.uuid fresh])
            :: AgentEvent.Respond rid (.NewInventoryUuid fresh)
            :: broadcastTo order
                (.Inventories (a.inventories ++ [Inventory.new name u.uuid fresh]))) ∧
    Inventory.new name u.uuid fresh
      = { uuid := fresh, name := name, owner := u.uuid, admins := [], writables := [],
          readables := [], items := [] } ∧
    ({ a with inventories := a.inventories ++ [Inventory.new name u.uuid fresh] }
        : DataAgent).handle_input (.GetInventory fresh) rid order fresh fresh2
      = some ({ a with inventories := a.inventories ++ [Inventory.new name u.uuid fresh] },
          [AgentEvent.Respond rid (.Inventory (Inventory.new name u.uuid fresh))]) := by
  refine ⟨?_, rfl, ?_⟩
  · simp [DataAgent.handle_input, hauth, Inventory.new]
  · have hnone : a.inventories.find? (fun inv => inv.uuid == fresh) = none :=
      List.find?_eq_none.mpr (fun x hx => by simpa using hfresh x hx)
    simp [DataAgent.handle_input, DataAgent.find_inv, hnone, Inventory.new]

/-- Witness for C2: creating "Garage" as `userA` in a fresh agent, the new
inventory with uuid 1 then resolves by `GetInventory 1`. -/
theorem C2_create_inventory_witness :
    ((DataAgent.mk0 []).newAuthState (.LoggedIn userA)).auth_state = .LoggedIn userA ∧
    ((DataAgent.mk0 []).newAuthState (.LoggedIn userA)).inventories = [] ∧
    ({ (DataAgent.mk0 []).newAuthState (.LoggedIn userA) with
        inventories := ((DataAgent.mk0 []).newAuthState (.LoggedIn userA)).inventories
          ++ [Inventory.new "Garage" userA.uuid 1] } : DataAgent).handle_input
        (.GetInventory 1) rid0 [sub0] 1 0
      = some ({ (DataAgent.mk0 []).newAuthState (.LoggedIn userA) with
            inventories := ((DataAgent.mk0 []).newAuthState (.LoggedIn userA)).inventories
              ++ [Inventory.new "Garage" userA.uuid 1] },
          [AgentEvent.Respond rid0 (.Inventory (Inventory.new "Garage" userA.uuid 1))]) :=
  ⟨rfl, rfl,
    (C2_create_inventory _ userA "Garage" rid0 [sub0] 1 0 rfl
      (by simp [DataAgent.mk0, DataAgent.newAuthState])).2.2⟩

/-- C5 counterexample: the claim says every Session Agent request also gets
a same-value direct reply to the requester even when the requester is not a
subscriber; but `handle_input` (auth.rs lines 62-98) ignores the requester
id (`_id`) and only loops over `self.subscribers` — a non-subscribed
requester `rid0` receives nothing. -/
theorem C5_counterexample :
    rid0 ∉ authAgentB.subscribers ∧
    authAgentB.subscribers = {sub0} ∧
    AuthAgent.handle_input .GetAuthStatus [sub0] true "e" = [(sub0, AuthState.Probing)] ∧
    (AuthAgent.handle_input .GetAuthStatus [sub0] true "e").all
      (fun p => p.1 != rid0) = true :=
  ⟨by decide, by decide, rfl, by decide⟩

/-- C5 amended: handling any Session Agent request delivers the computed
AuthState to every enumerated subscriber (and the eventual fetch callback's
`update` does the same for the final state); no separate direct reply
exists, so a requester that is not a subscriber receives nothing. -/
theorem C5_amended (msg : AuthRequest) (m : AuthMsg) (order : List HandlerId)
    (taskOk : Bool) (taskErr : String) (r : HandlerId) (hr : r ∉ order) :
    (∀ s ∈ order, (s, authRequestOutput msg taskOk taskErr)
        ∈ AuthAgent.handle_input msg order taskOk taskErr) ∧
    (∀ p ∈ AuthAgent.handle_input msg order taskOk taskErr, p.1 ≠ r) ∧
    (∀ s ∈ order, (s, authUpdateOutput m) ∈ AuthAgent.update m order) ∧
    (∀ p ∈ AuthAgent.update m order, p.1 ≠ r) := by
  refine ⟨fun s hs => List.mem_map_of_mem _ hs, ?_,
    fun s hs => List.mem_map_of_mem _ hs, ?_⟩ <;>
  · intro p hp
    obtain ⟨s, hs, rfl⟩ := List.mem_map.mp hp
    exact fun hcontr => hr (hcontr ▸ hs)

/-- Witness for C5 amended: subscriber `sub0` enumerated, requester `rid0`
not subscribed. -/
theorem C5_amended_witness :
    rid0 ∉ [sub0] ∧
    (sub0, authRequestOutput .Logout true "e")
      ∈ AuthAgent.handle_input .Logout [sub0] true "e" :=
  ⟨by decide, (C5_amended .Logout .LoggedOut [sub0] true "e" rid0 (by decide)).1 sub0
    (by decide)⟩

/-- C7 counterexample: the claim says broadcasts are delivered in
subscription order, deterministically; but both agents keep subscribers in
a `HashSet`, and the agent state after subscribing `sub0` then `(1, true)`
is identical to the state after subscribing them in the opposite order —
the subscription order is not recoverable from the state, so no delivery
order that is a function of the state can equal both distinct subscription
orders (and Rust's `HashSet` iteration order is hash-seed dependent across
runs besides). -/
theorem C7_counterexample :
    (AuthAgent.mk0.connected sub0).connected (1, true)
      = (AuthAgent.mk0.connected (1, true)).connected sub0 ∧
    [sub0, ((1 : Nat), true)] ≠ [((1 : Nat), true), sub0] := by
  constructor
  · simp only [AuthAgent.connected, AuthAgent.mk.injEq]
    exact Finset.Insert.comm _ _ _
  · decide

/-- C7 amended: a broadcast of either agent delivers the message to every
currently subscribed consumer, and (the enumeration being duplicate-free,
as a `HashSet` iteration is) the delivery list is duplicate-free — each
subscriber receives the message exactly once.  The order is the `HashSet`
enumeration order, which is unspecified, not the subscription order. -/
theorem C7_amended (order : List HandlerId) (hnd : order.Nodup)
    (msg : DataAgentResponse) (m : AuthMsg) :
    (∀ s ∈ order, AgentEvent.Respond s msg ∈ broadcastTo order msg) ∧
    (broadcastTo order msg).Nodup ∧
    (∀ s ∈ order, (s, authUpdateOutput m) ∈ AuthAgent.update m order) ∧
    (AuthAgent.update m order).Nodup := by
  have hinj1 : Function.Injective (fun sub => AgentEvent.Respond sub msg) := by
    intro x y hxy
    simpa using hxy
  have hinj2 : Function.Injective (fun sub : HandlerId => (sub, authUpdateOutput m)) := by
    intro x y hxy
    simpa using hxy
  exact ⟨fun s hs => List.mem_map_of_mem _ hs, hnd.map hinj1,
    fun s hs => List.mem_map_of_mem _ hs, hnd.map hinj2⟩

/-- Witness for C7 amended on the two-subscriber enumeration. -/
theorem C7_amended_witness :
    ([sub0, rid0] : List HandlerId).Nodup ∧
    (broadcastTo [sub0, rid0] .InvalidInventoryUuid).Nodup :=
  ⟨by decide, (C7_amended [sub0, rid0] (by decide) .InvalidInventoryUuid .LoggedOut).2.1⟩

/-- C9: every mutating operation's event trace starts with the single
`persist_data` write of the post-mutation collection, and everything after
it is only `link.respond` calls (direct reply and/or broadcast): no reply
or broadcast ever precedes the persistence write. -/
theorem C9_persist_before_reply (a : DataAgent) (msg : DataAgentRequest)
    (rid : HandlerId) (order : List HandlerId) (fresh fresh2 : Uuid)
    (a2 : DataAgent) (events : List AgentEvent)
    (hm : a.mutates msg = true)
    (h : a.handle_input msg rid order fresh fresh2 = some (a2, events)) :
    ∃ rest, events = AgentEvent.Persist a2.inventories :: rest ∧
      ∀ e ∈ rest, ∃ d m2, e = AgentEvent.Respond d m2 := by
  cases msg with
  | GetInventories => exact Bool.noConfusion hm
  | GetInventory iu => exact Bool.noConfusion hm
  | GetItem iu tu => exact Bool.noConfusion hm
  | MakeDebugInventory =>
      simp only [DataAgent.handle_input, Option.some.injEq, Prod.mk.injEq] at h
      obtain ⟨rfl, rfl⟩ := h
      refine ⟨_, rfl, ?_⟩
      intro e he
      rcases List.mem_cons.mp he with rfl | he2
      · exact ⟨rid, _, rfl⟩
      · obtain ⟨d, rfl⟩ := mem_broadcastTo he2
        exact ⟨d, _, rfl⟩
  | CreateInventory nm =>
      cases hauth : a.auth_state with
      | LoggedIn u =>
          simp only [DataAgent.handle_input, hauth, Option.some.injEq,
            Prod.mk.injEq] at h
          obtain ⟨rfl, rfl⟩ := h
          refine ⟨_, rfl, ?_⟩
          intro e he
          rcases List.mem_cons.mp he with rfl | he2
          · exact ⟨rid, _, rfl⟩
          · obtain ⟨d, rfl⟩ := mem_broadcastTo he2
            exact ⟨d, _, rfl⟩
      | Initial => rw [DataAgent.mutates, hauth] at hm; exact Bool.noConfusion hm
      | Probing => rw [DataAgent.mutates, hauth] at hm; exact Bool.noConfusion hm
      | LoggingIn => rw [DataAgent.mutates, hauth] at hm; exact Bool.noConfusion hm
      | LoggingOut => rw [DataAgent.mutates, hauth] at hm; exact Bool.noConfusion hm
      | Error e => rw [DataAgent.mutates, hauth] at hm; exact Bool.noConfusion hm
  | DeleteAllData =>
      simp only [DataAgent.handle_input, Option.some.injEq, Prod.mk.injEq] at h
      obtain ⟨rfl, rfl⟩ := h
      refine ⟨_, rfl, ?_⟩
      intro e he
      obtain ⟨d, rfl⟩ := mem_broadcastTo he
      exact ⟨d, _, rfl⟩
  | CreateItem iu nm ean =>
      simp only [DataAgent.handle_input] at h
      split at h
      · exact Option.noConfusion h
      · split at h
        · exact Option.noConfusion h
        · simp only [Option.some.injEq, Prod.mk.injEq] at h
          obtain ⟨rfl, rfl⟩ := h
          refine ⟨_, rfl, ?_⟩
          intro e he
          rcases List.mem_cons.mp he with rfl | he2
          · exact ⟨rid, _, rfl⟩
          · simp at he2
  | UpdateInventory target nm owner admins writables readables =>
      simp only [DataAgent.handle_input, Option.some.injEq, Prod.mk.injEq] at h
      obtain ⟨rfl, rfl⟩ := h
      refine ⟨_, rfl, ?_⟩
      intro e he
      rcases List.mem_cons.mp he with rfl | he2
      · exact ⟨rid, _, rfl⟩
      · simp at he2
  | UpdateItem target nm ean =>
      simp only [DataAgent.handle_input, Option.some.injEq, Prod.mk.injEq] at h
      obtain ⟨rfl, rfl⟩ := h
      refine ⟨_, rfl, ?_⟩
      intro e he
      rcases List.mem_cons.mp he with rfl | he2
      · exact ⟨rid, _, rfl⟩
      · simp at he2
  | DeleteInventory target =>
      simp only [DataAgent.handle_input] at h
      split at h
      · exact Option.noConfusion h
      · simp only [Option.some.injEq, Prod.mk.injEq] at h
        obtain ⟨rfl, rfl⟩ := h
        refine ⟨_, rfl, ?_⟩
        intro e he
        rcases List.mem_cons.mp he with rfl | he2
        · exact ⟨rid, _, rfl⟩
        · simp at he2
  | DeleteItem target =>
      simp only [DataAgent.handle_input] at h
      split at h
      · exact Option.noConfusion h
      · split at h
        · exact Option.noConfusion h
        · split at h
          · exact Option.noConfusion h
          · simp only [Option.some.injEq, Prod.mk.injEq] at h
            obtain ⟨rfl, rfl⟩ := h
            refine ⟨_, rfl, ?_⟩
            intro e he
            rcases List.mem_cons.mp he with rfl | he2
            · exact ⟨rid, _, rfl⟩
            · simp at he2

/-- Witness for C9: `DeleteAllData` on `agentC` persists the new (empty)
collection first, then broadcasts. -/
theorem C9_persist_before_reply_witness :
    agentC.mutates .DeleteAllData = true ∧
    agentC.handle_input .DeleteAllData rid0 [sub0] 0 0
      = some ({ agentC with inventories := [] },
          [AgentEvent.Persist [], AgentEvent.Respond sub0 (.Inventories [])]) ∧
    [AgentEvent.Persist [], AgentEvent.Respond sub0 (.Inventories [])]
      = AgentEvent.Persist ({ agentC with inventories := [] } : DataAgent).inventories
        :: [AgentEvent.Respond sub0 (.Inventories [])] := by
  refine ⟨rfl, rfl, ?_⟩
  obtain ⟨rest, hrest, -⟩ :=
    C9_persist_before_reply agentC .DeleteAllData rid0 [sub0] 0 0
      { agentC with inventories := [] }
      [AgentEvent.Persist [], AgentEvent.Respond sub0 (.Inventories [])] rfl rfl
  have h2 := List.cons.inj hrest
  exact hrest.trans (by rw [h2.2])
